import Mathlib

/-!
# Verification of the Garden action-graph, exec plugin, run-result store and console shell

This file shallowly embeds the parts of the Garden codebase that the checked
claims are about:

* `actionConfigsToGraph` (config registration, execution-mode resolution and
  the unsupported-mode warning) and `dependenciesFromActionConfig` from
  `core/src/graph/actions.ts`;
* `addActionConfig` / the duplicate-config error from `core/src/garden.ts`;
* the `exec` plugin's Build/Run/Test handlers from
  `core/src/plugins/exec/{build,run,test}.ts`;
* `getRunResultKey`, `k8sGetRunResult` and `storeRunResult` from the
  Kubernetes run-result store (`core/src/plugins/kubernetes/run-results.ts`);
* the `CommandLine` editor's `handleReturn` from `core/src/cli/command-line.ts`.

Pure functions are translated into Lean functions; stateful code becomes
explicit state passing; fallible code returns `Except`; JavaScript machine
integers do not occur on these paths (SHA-1 is implemented over `Nat` with
explicit reduction modulo `2 ^ 32`).
-/

set_option maxRecDepth 4096

namespace Garden

/-! ## Action kinds and configs (core/src/actions/types.ts) -/

/-- The four action kinds. The kind set is closed and exhaustive. -/
inductive ActionKind where
  | Build
  | Deploy
  | Run
  | Test
  deriving DecidableEq, Repr

/-- `actionKinds` constant from `core/src/actions/types.ts`. -/
def actionKinds : List ActionKind :=
  [ActionKind.Build, ActionKind.Deploy, ActionKind.Run, ActionKind.Test]

/-- String form of a kind, as used in action keys (`"kind.name"`). -/
def ActionKind.str : ActionKind → String
  | .Build => "Build"
  | .Deploy => "Deploy"
  | .Run => "Run"
  | .Test => "Test"

/-- The `internal` metadata block of an action config (subset used here). -/
structure ActionInternal where
  basePath : String
  configFilePath : Option String := none
  groupName : Option String := none
  deriving DecidableEq, Repr

/-- A reference to an action found in a template expression, as returned by
`getActionTemplateReferences`: the parsed `kind`/`name` plus the raw segments
of the full keypath (`["actions", "<kind>", "<name>", ...]`). -/
structure TemplateRef where
  kind : ActionKind
  name : String
  fullRef : List String
  deriving DecidableEq, Repr

/-- An action config (`BaseActionConfig`), restricted to the fields the
embedded operations read: identity, source locations, explicit dependency
strings, the Build-only `copyFrom` list, the runtime-action `build`
back-reference, and the action-reference template expressions occurring in
its `spec`/`variables` (the result of `getActionTemplateReferences`). -/
structure ActionConfig where
  kind : ActionKind
  type : String
  name : String
  internal : ActionInternal
  dependencies : List String := []
  copyFrom : List String := []
  build : Option String := none
  templateRefs : List TemplateRef := []
  deriving DecidableEq, Repr

/-- Modelled from the spec: `actionReferenceToString` (in
`core/src/actions/base.ts`, outside the excerpt) produces the registry key
`"<kind>.<name>"` for a config — the spec describes the registry as
"a map keyed by `kind.name`". -/
def actionReferenceToString (kind : ActionKind) (name : String) : String :=
  kind.str ++ "." ++ name

/-- The `"kind.name"` key of a config. -/
def ActionConfig.key (c : ActionConfig) : String :=
  actionReferenceToString c.kind c.name

/-- The source path reported for a config: its config file path when known,
else its base path (the `internal.configFilePath || internal.basePath`
pattern used by the error paths). -/
def ActionConfig.sourcePath (c : ActionConfig) : String :=
  c.internal.configFilePath.getD c.internal.basePath

/-! ## Glob matching (third-party `minimatch`, used by `actionConfigsToGraph`)

Modelled from the library's documented behaviour for the pattern subset the
mode maps use: literal characters match themselves, `?` matches a single
character other than `/`, `*` matches any run of characters other than `/`,
and a wildcard never matches a leading dot. Extglobs, braces and character
classes are not modelled (no claim depends on them). -/

/-- Core glob matcher over character lists, structurally recursive on a fuel
bound (every step shrinks the pattern or the string, so
`pattern.length + string.length + 1` fuel always suffices). -/
def globMatchFuel : Nat → List Char → List Char → Bool
  | 0, _, _ => false
  | _ + 1, [], s => s.isEmpty
  | fuel + 1, p :: ps, s =>
    if p = '*' then
      match s with
      | [] => globMatchFuel fuel ps []
      | c :: cs =>
        globMatchFuel fuel ps (c :: cs) ||
          (decide (c ≠ '/') && globMatchFuel fuel (p :: ps) cs)
    else
      match s with
      | [] => false
      | c :: cs => (if p = '?' then decide (c ≠ '/') else p == c) && globMatchFuel fuel ps cs

/-- Core glob matcher over character lists. -/
def globMatchAux (pat s : List Char) : Bool :=
  globMatchFuel (pat.length + s.length + 1) pat s

/-- `minimatch(str, pattern)`: top-level wrapper adding the leading-dot rule. -/
def minimatch (str pat : String) : Bool :=
  match str.data, pat.data with
  | '.' :: _, p :: _ => if p = '*' || p = '?' then false else globMatchAux pat.data str.data
  | _, _ => globMatchAux pat.data str.data

/-! ## Execution-mode resolution (`actionConfigsToGraph`, lines 124–155) -/

/-- Action execution modes. -/
inductive ActionMode where
  | default
  | sync
  | local
  deriving DecidableEq, Repr

/-- The `actionModes` parameter: `sync` and `local` pattern lists (absent
lists are the empty list, per the `actionModes.sync || []` reads). -/
structure ActionModeMap where
  sync : List String := []
  local_ : List String := []
  deriving Repr

/-- One scan of a pattern list for a key, mirroring the loop body: for each
pattern in order, an exact key match breaks with the explicit flag set, else
a glob match breaks with the flag not set. Returns `some explicit?` for the
first matching entry, `none` when no entry matches. -/
def scanPatterns (key : String) : List String → Option Bool
  | [] => none
  | p :: ps =>
    if key = p then some true
    else if minimatch key p then some false
    else scanPatterns key ps

/-- Result of mode resolution for one action key. -/
structure ModeResult where
  mode : ActionMode
  explicitMode : Bool
  deriving DecidableEq, Repr

/-- The mode-resolution block of `actionConfigsToGraph`: `mode` starts as
`default` with `explicitMode = false`; the `sync` list is scanned, then the
`local` list (local takes precedence over sync). Note that the glob branches
set only `mode`, never `explicitMode`. -/
def resolveActionMode (modes : ActionModeMap) (key : String) : ModeResult :=
  let afterSync : ModeResult :=
    match scanPatterns key modes.sync with
    | some b => { mode := ActionMode.sync, explicitMode := b }
    | none => { mode := ActionMode.default, explicitMode := false }
  match scanPatterns key modes.local_ with
  | some true => { mode := ActionMode.local, explicitMode := true }
  | some false => { mode := ActionMode.local, explicitMode := afterSync.explicitMode }
  | none => afterSync

/-- The unsupported-mode warning decision (`actionConfigsToGraph`,
lines 170–174): the warning is logged iff the action does not support the
resolved mode and the explicit flag was set. -/
def modeWarningEmitted (supportsMode : ActionMode → Bool) (modes : ActionModeMap)
    (key : String) : Bool :=
  let r := resolveActionMode modes key
  !supportsMode r.mode && r.explicitMode

/-! ## Config registration (`actionConfigsToGraph`, lines 85–113, and
`actionNameConflictError`, lines 329–339) -/

/-- The `ConfigurationError` thrown on registration failures: a message plus
the structured detail (`{ configA, configB }` for name conflicts, `{ config }`
for an unknown kind). -/
structure ConfigurationError where
  message : String
  configA : Option ActionConfig := none
  configB : Option ActionConfig := none
  deriving DecidableEq, Repr

/-- Modelled from the spec: `relative(projectRoot, path)` (Node's `path`
module) — strips the project root from an absolute path under it. -/
def relativeTo (root p : String) : String :=
  if (root ++ "/").isPrefixOf p then p.drop (root.length + 1) else p

/-- Modelled from the spec: `describeActionConfigWithPath` (in
`core/src/actions/base.ts`, outside the excerpt) describes a config together
with its source path relative to the project root — the spec requires the
conflict error to name "both config file locations". -/
def describeActionConfigWithPath (c : ActionConfig) (rootPath : String) : String :=
  c.kind.str ++ " action " ++ c.name ++ " (in " ++ relativeTo rootPath c.sourcePath ++ ")"

/-- `actionNameConflictError(configA, configB, rootPath)`: the configuration
error reported for two actions of the same name and kind, naming both
configs' source paths and carrying both configs as detail. -/
def actionNameConflictError (configA configB : ActionConfig) (rootPath : String) :
    ConfigurationError :=
  { message :=
      "Found two actions of the same name and kind:\n  - " ++
      describeActionConfigWithPath configA rootPath ++ "\n  - " ++
      describeActionConfigWithPath configB rootPath ++
      "\nPlease rename one of the two to avoid the conflict."
    configA := some configA
    configB := some configB }

/-- The registry built by `actionConfigsToGraph` (`configsByKey`), as an
insertion-ordered association list from `"kind.name"` keys to configs. -/
abbrev ConfigsByKey := List (String × ActionConfig)

/-- `addConfig` (lines 87–99): reject unknown kinds, then look the key up in
the registry; an existing entry is a fatal name-conflict error, otherwise the
config is inserted under its key. -/
def addConfig (projectRoot : String) (reg : ConfigsByKey) (config : ActionConfig) :
    Except ConfigurationError ConfigsByKey :=
  if ¬ actionKinds.contains config.kind then
    .error { message := "Unknown action kind", configA := some config }
  else
    match reg.lookup config.key with
    | some existing => .error (actionNameConflictError existing config projectRoot)
    | none => .ok (reg ++ [(config.key, config)])

/-- A group config: a named collection of action configs (subset used by the
registration pass). -/
structure GroupConfig where
  name : String
  internalConfigFilePath : Option String := none
  actions : List ActionConfig := []
  deriving Repr

/-- The group-flattening step (lines 103–113): each group-nested config gets
its group name stamped, and inherits the group's config file path when the
group has one. -/
def applyGroupMeta (g : GroupConfig) (c : ActionConfig) : ActionConfig :=
  { c with
    internal :=
      { c.internal with
        groupName := some g.name
        configFilePath :=
          match g.internalConfigFilePath with
          | some p => some p
          | none => c.internal.configFilePath } }

/-- All configs passed to graph construction, flattened: directly declared
(which includes module-derived ones, merged upstream) plus group-nested. -/
def flattenConfigs (configs : List ActionConfig) (groups : List GroupConfig) :
    List ActionConfig :=
  configs ++ groups.flatMap (fun g => g.actions.map (applyGroupMeta g))

/-- Registry construction (lines 85–113): fold `addConfig` over the flattened
config list, failing on the first duplicate `(kind, name)` key. -/
def buildConfigsByKey (projectRoot : String) (configs : List ActionConfig) :
    Except ConfigurationError ConfigsByKey :=
  configs.foldlM (addConfig projectRoot) []

/-- The registration phase of `actionConfigsToGraph`: flatten, then register. -/
def registerActionConfigs (projectRoot : String) (configs : List ActionConfig)
    (groups : List GroupConfig) : Except ConfigurationError ConfigsByKey :=
  buildConfigsByKey projectRoot (flattenConfigs configs groups)

/-- A sample Build action config (first of a conflicting pair). -/
def sampleConfigA : ActionConfig :=
  { kind := ActionKind.Build, type := "exec", name := "api",
    internal := { basePath := "/root/a", configFilePath := some "/root/a/garden.yml" } }

/-- A sample Build action config with the same `(kind, name)` as
`sampleConfigA` but a different source path. -/
def sampleConfigB : ActionConfig :=
  { kind := ActionKind.Build, type := "container", name := "api",
    internal := { basePath := "/root/b", configFilePath := some "/root/b/garden.yml" } }

/-! ## String helpers from the template engine -/

/-- Whether a character list contains a `${` template-expression opener. -/
def hasTemplateOpener : List Char → Bool
  | '$' :: '\x7b' :: _ => true
  | _ :: rest => hasTemplateOpener rest
  | [] => false

/-- `maybeTemplateString` (template-string module): whether a string contains
a `${` template-expression opener. -/
def maybeTemplateString (s : String) : Bool :=
  hasTemplateOpener s.data

/-! ## Dependency inference (`dependenciesFromActionConfig`, lines 586–671) -/

/-- A computed dependency edge: target reference plus edge attributes. -/
structure ActionDependency where
  kind : ActionKind
  name : String
  explicit : Bool
  needsExecutedOutputs : Bool
  needsStaticOutputs : Bool
  deriving DecidableEq, Repr

/-- Kind names accepted in dependency reference strings. -/
def parseActionKindName (s : String) : Option ActionKind :=
  if s = "Build" ∨ s = "build" then some ActionKind.Build
  else if s = "Deploy" ∨ s = "deploy" then some ActionKind.Deploy
  else if s = "Run" ∨ s = "run" then some ActionKind.Run
  else if s = "Test" ∨ s = "test" then some ActionKind.Test
  else none

/-- Modelled from the spec: `parseActionReference` (in
`core/src/config/common.ts`, outside the excerpt) parses an explicit
dependency entry of the documented `"<kind>.<name>"` form into a
`{kind, name}` reference; a malformed entry is a validation error. -/
def parseActionReference (s : String) : Except String (ActionKind × String) :=
  match s.splitOn "." with
  | [k, n] =>
    match parseActionKindName k with
    | some kind => .ok (kind, n)
    | none => .error ("Invalid dependency specified: unknown kind in " ++ s)
  | _ => .error ("Invalid dependency specified: " ++ s)

/-- Modelled from the spec: `addActionDependency` (in
`core/src/actions/base.ts`, outside the excerpt) merges a dependency into the
list — an existing edge with the same `(kind, name)` has its attribute flags
combined disjunctively, otherwise the new edge is appended. -/
def addActionDependency (dep : ActionDependency) (deps : List ActionDependency) :
    List ActionDependency :=
  if deps.any (fun d => d.kind = dep.kind ∧ d.name = dep.name) then
    deps.map fun d =>
      if d.kind = dep.kind ∧ d.name = dep.name then
        { d with
          explicit := d.explicit || dep.explicit
          needsExecutedOutputs := d.needsExecutedOutputs || dep.needsExecutedOutputs
          needsStaticOutputs := d.needsStaticOutputs || dep.needsStaticOutputs }
      else d
  else deps ++ [dep]

/-- The attributes computed for one action-reference template expression
(lines 647–668): the edge requires executed outputs exactly when the
reference drills into `outputs` with a (non-empty) output key that is not
declared in the referenced type's static-outputs schema; otherwise only
static outputs are required. -/
def inferTemplateRefDep (staticKeys : List String) (kind : ActionKind)
    (name : String) (fullRef : List String) : ActionDependency :=
  let outputKey := fullRef.get? 4
  let needsExecuted : Bool :=
    fullRef.get? 3 == some "outputs" &&
      match outputKey with
      | some k => decide (k ≠ "") && ! staticKeys.contains k
      | none => false
  { kind := kind
    name := name
    explicit := false
    needsExecutedOutputs := needsExecuted
    needsStaticOutputs := ! needsExecuted }

/-- `dependenciesFromActionConfig`: explicit `dependencies` entries (parsed,
malformed entries are a validation error), then the Build `copyFrom` /
runtime `build` implicit dependencies (a missing target Build is a
configuration error), then edges inferred from action-reference template
expressions. A reference whose `name` is itself a template string is resolved
through the supplied resolver (standing in for `resolveTemplateString` with
the action's template context); when resolution fails the reference is
skipped with a warning. -/
def dependenciesFromActionConfig (config : ActionConfig) (configsByKey : ConfigsByKey)
    (staticKeys : List String) (resolveName : String → Option String) :
    Except String (List ActionDependency) := do
  let explicitDeps ← config.dependencies.mapM fun d => do
    let (kind, name) ← parseActionReference d
    pure
      { kind := kind, name := name, explicit := true,
        needsExecutedOutputs := false, needsStaticOutputs := false : ActionDependency }
  let deps ←
    if config.kind = ActionKind.Build then
      config.copyFrom.foldlM
        (fun deps b =>
          if (configsByKey.lookup (actionReferenceToString ActionKind.Build b)).isNone then
            .error ("references Build " ++ b ++
              " in the `copyFrom` field, but no such Build action could be found")
          else
            pure (addActionDependency
              { kind := ActionKind.Build, name := b, explicit := true,
                needsExecutedOutputs := false, needsStaticOutputs := false } deps))
        explicitDeps
    else
      match config.build with
      | some b =>
        if (configsByKey.lookup (actionReferenceToString ActionKind.Build b)).isNone then
          .error ("references Build " ++ b ++
            " in the `build` field, but no such Build action could be found")
        else
          pure (addActionDependency
            { kind := ActionKind.Build, name := b, explicit := true,
              needsExecutedOutputs := false, needsStaticOutputs := false } explicitDeps)
      | none => pure explicitDeps
  let deps := config.templateRefs.foldl
    (fun deps ref =>
      let resolved : Option String :=
        if maybeTemplateString ref.name then resolveName ref.name else some ref.name
      match resolved with
      | none => deps
      | some n => addActionDependency (inferTemplateRefDep staticKeys ref.kind n ref.fullRef) deps)
    deps
  pure deps

/-! ## The exec plugin's Build/Run/Test handlers
(`core/src/plugins/exec/{build,run,test}.ts`) -/

/-- JavaScript whitespace characters recognised by `String.prototype.trim`
(the subset occurring in process output). -/
def isJsWhitespace (c : Char) : Bool :=
  c = ' ' ∨ c = '\t' ∨ c = '\n' ∨ c = '\r' ∨ c = '\x0b' ∨ c = '\x0c'

/-- JavaScript `String.prototype.trim`. -/
def jsTrim (s : String) : String :=
  ⟨((s.data.dropWhile isJsWhitespace).reverse.dropWhile isJsWhitespace).reverse⟩

/-- The result of `execRunCommand` (the `execa`-backed process runner):
exit code, the interleaved `all` stream when captured, and the separate
stdout/stderr streams. -/
structure CmdResult where
  exitCode : Int
  allOutput : Option String := none
  stdout : String := ""
  stderr : String := ""
  deriving DecidableEq, Repr

/-- `result.all?.trim() || ""`: the captured output of a run, trimmed, with a
missing `all` stream collapsing to the empty string. -/
def capturedOutput (r : CmdResult) : String :=
  match r.allOutput with
  | some s => jsTrim s
  | none => ""

/-- The detail record built by the exec Run handler. Timestamps are abstract
clock readings (the handler only ever copies them). -/
structure ExecRunDetail where
  success : Bool
  log : String
  startedAt : Nat
  completedAt : Nat
  deriving DecidableEq, Repr

/-- Observable outcome of the exec Run/Test `run` handlers, including whether
`execRunCommand` was invoked at all. -/
structure ExecRunOutcome where
  executed : Bool
  detail : ExecRunDetail
  outputsLog : String
  deriving DecidableEq, Repr

/-- The exec Run action `run` handler (`run.ts`, lines 186–242): a non-empty
command is executed (without rejecting on failure; the exit code determines
`success`) and `completedAt` is sampled after it finishes; an empty command
is an immediate no-op success with empty output and `completedAt` set to
`startedAt` itself. `t0` is the `startedAt` clock reading and `t1` the
reading taken after a command execution. -/
def execRunHandler (runner : List String → CmdResult) (command : List String)
    (t0 t1 : Nat) : ExecRunOutcome :=
  if command.length ≠ 0 then
    let r := runner command
    let outputLog := capturedOutput r
    { executed := true
      detail :=
        { success := r.exitCode == 0, log := outputLog, startedAt := t0, completedAt := t1 }
      outputsLog := outputLog }
  else
    { executed := false
      detail := { success := true, log := "", startedAt := t0, completedAt := t0 }
      outputsLog := "" }

/-- The exec Test action `run` handler (`test.ts`, lines 34–76): it
unconditionally invokes `execRunCommand` with the configured command — there
is no empty-command branch — and samples `completedAt` after the run. -/
def execTestHandler (runner : List String → CmdResult) (command : List String)
    (t0 t1 : Nat) : ExecRunOutcome :=
  let r := runner command
  let outputLog := capturedOutput r
  { executed := true
    detail :=
      { success := r.exitCode == 0, log := outputLog, startedAt := t0, completedAt := t1 }
    outputsLog := outputLog }

/-- Outcome of the exec Build handler: state, optional freshness/log detail,
optional `log` output, and whether the command was executed. -/
structure ExecBuildOutcome where
  executed : Bool
  state : String
  fresh : Bool
  buildLog : Option String
  outputsLog : Option String
  deriving DecidableEq, Repr

/-- The exec Build `build` handler (`build.ts`, lines 124–156): starts from
`{state: "ready", outputs: {}, detail: {}}`; only a non-empty command is
executed, recording `fresh` and a build log (`result.all ||
result.stdout + result.stderr`); a non-empty build log is copied to the
`log` output. -/
def execBuildHandler (runner : List String → CmdResult) (command : List String) :
    ExecBuildOutcome :=
  let base : ExecBuildOutcome :=
    { executed := false, state := "ready", fresh := false, buildLog := none, outputsLog := none }
  let afterRun :=
    if command.length ≠ 0 then
      let r := runner command
      let log :=
        match r.allOutput with
        | some s => if s = "" then r.stdout ++ r.stderr else s
        | none => r.stdout ++ r.stderr
      { base with executed := true, fresh := true, buildLog := some log }
    else base
  match afterRun.buildLog with
  | some log => if log = "" then afterRun else { afterRun with outputsLog := some log }
  | none => afterRun

/-! ## SHA-1 (third-party `hasha` with `{algorithm: "sha1"}`)

A direct implementation of FIPS 180-1 SHA-1 over byte lists, with 32-bit
words represented as `Nat` reduced modulo `2 ^ 32`. -/

/-- Left rotation of a 32-bit word. -/
def rotl32 (n x : Nat) : Nat :=
  (x % 2 ^ 32) * 2 ^ n % 2 ^ 32 + (x % 2 ^ 32) / 2 ^ (32 - n)

/-- The SHA-1 round constant for round `t`. -/
def sha1K (t : Nat) : Nat :=
  if t < 20 then 0x5a827999
  else if t < 40 then 0x6ed9eba1
  else if t < 60 then 0x8f1bbcdc
  else 0xca62c1d6

/-- The SHA-1 round function for round `t` (complement taken within 32 bits). -/
def sha1F (t b c d : Nat) : Nat :=
  if t < 20 then (b &&& c) ||| ((0xffffffff ^^^ b) &&& d)
  else if t < 40 then (b ^^^ c) ^^^ d
  else if t < 60 then (b &&& c) ||| (b &&& d) ||| (c &&& d)
  else (b ^^^ c) ^^^ d

/-- Big-endian bytes of `x`, `len` bytes wide. -/
def toBytesBE (len x : Nat) : List Nat :=
  (List.range len).map fun i => x / 256 ^ (len - 1 - i) % 256

/-- SHA-1 message padding: `0x80`, zero bytes up to 56 mod 64, then the
bit length as a 64-bit big-endian integer. -/
def sha1Pad (msg : List Nat) : List Nat :=
  let padZeros := (119 - msg.length % 64) % 64
  msg ++ 0x80 :: List.replicate padZeros 0 ++ toBytesBE 8 (msg.length * 8)

/-- Split a byte list into 64-byte blocks. -/
def sha1Blocks (bytes : List Nat) : List (List Nat) :=
  if bytes.isEmpty then []
  else bytes.take 64 :: sha1Blocks (bytes.drop 64)
termination_by bytes.length
decreasing_by
  simp only [List.length_drop]
  cases bytes with
  | nil => simp_all
  | cons b bs => simp; omega

/-- A big-endian 32-bit word from a byte list. -/
def bytesToWord (bs : List Nat) : Nat :=
  bs.foldl (fun acc b => acc * 256 + b % 256) 0

/-- Extend the 16 block words to the 80-entry message schedule. -/
def sha1Extend (w : List Nat) : List Nat :=
  (List.range 64).foldl
    (fun w _ =>
      let n := w.length
      w ++ [rotl32 1 ((w.getD (n - 3) 0 ^^^ w.getD (n - 8) 0) ^^^
        (w.getD (n - 14) 0 ^^^ w.getD (n - 16) 0))])
    w

/-- The five SHA-1 working registers / chaining values. -/
structure Sha1Regs where
  a : Nat
  b : Nat
  c : Nat
  d : Nat
  e : Nat
  deriving DecidableEq, Repr

/-- SHA-1 initial chaining values. -/
def sha1Init : Sha1Regs :=
  ⟨0x67452301, 0xefcdab89, 0x98badcfe, 0x10325476, 0xc3d2e1f0⟩

/-- One SHA-1 block compression. -/
def sha1ProcessBlock (h : Sha1Regs) (block : List Nat) : Sha1Regs :=
  let w := sha1Extend ((List.range 16).map fun i => bytesToWord ((block.drop (4 * i)).take 4))
  let r := (List.range 80).foldl
    (fun (r : Sha1Regs) t =>
      let temp := (rotl32 5 r.a + sha1F t r.b r.c r.d + r.e + sha1K t + w.getD t 0) % 2 ^ 32
      { a := temp, b := r.a, c := rotl32 30 r.b, d := r.c, e := r.d })
    h
  { a := (h.a + r.a) % 2 ^ 32
    b := (h.b + r.b) % 2 ^ 32
    c := (h.c + r.c) % 2 ^ 32
    d := (h.d + r.d) % 2 ^ 32
    e := (h.e + r.e) % 2 ^ 32 }

/-- The sixteen lowercase hex digits. -/
def hexChars : List Char :=
  "0123456789abcdef".data

/-- The hex digit of `n % 16`. -/
def hexDigit (n : Nat) : Char :=
  hexChars.getD (n % 16) '0'

/-- Eight-digit lowercase hex rendering of a 32-bit word. -/
def hexWord32 (x : Nat) : List Char :=
  (List.range 8).map fun i => hexDigit (x / 16 ^ (7 - i))

/-- The 40-character lowercase hex SHA-1 digest of a byte list. -/
def sha1Hex (bytes : List Nat) : String :=
  let f := (sha1Blocks (sha1Pad bytes)).foldl sha1ProcessBlock sha1Init
  ⟨hexWord32 f.a ++ hexWord32 f.b ++ hexWord32 f.c ++ hexWord32 f.d ++ hexWord32 f.e⟩

/-- The UTF-8 bytes of a string (strings are hashed via their UTF-8
encoding). -/
def utf8Bytes (s : String) : List Nat :=
  s.toUTF8.toList.map (fun b => b.toNat)

/-- JavaScript `hash.slice(0, n)` on an ASCII string: the first `n`
characters. -/
def sliceChars (s : String) (n : Nat) : String :=
  ⟨s.data.take n⟩

/-! ## Run-result store (`core/src/plugins/kubernetes/run-results.ts`) -/

/-- `getRunResultKey` (lines 300–304): the run-result record name is
`"run-result--"` followed by the first 32 hex characters of the SHA-1 digest
of `"<projectName>--<actionType>.<actionName>--<versionString>"`. -/
def getRunResultKey (projectName actionType actionName versionString : String) : String :=
  let key := projectName ++ "--" ++ actionType ++ "." ++ actionName ++ "--" ++ versionString
  let hash := sha1Hex (utf8Bytes key)
  "run-result--" ++ sliceChars hash 32

/-- The `outputs` object of a stored run record. -/
structure StoredOutputs where
  log : Option String := none
  deriving DecidableEq, Repr

/-- The `version` field of a stored record: either a bare version string or a
legacy structured object carrying `versionString`. -/
inductive StoredVersion where
  | plain (s : String)
  | structured (versionString : String)
  deriving DecidableEq, Repr

/-- A run-result record as deserialized from the backing config record
(fields the read path touches; absent fields are `none`). -/
structure StoredRunRecord where
  success : Bool
  log : Option String := none
  outputs : Option StoredOutputs := none
  version : StoredVersion := StoredVersion.plain ""
  deriving DecidableEq, Repr

/-- The backwards-compatibility normalization in `k8sGetRunResult`
(lines 277–288): synthesize a missing `outputs` object; backfill a falsy
`outputs.log` from the legacy top-level `log` field (`result.log || ""`);
collapse a structured `version` to its `versionString` when that is truthy. -/
def normalizeRunRecord (r : StoredRunRecord) : StoredRunRecord :=
  let outs := r.outputs.getD {}
  let outs :=
    if outs.log.getD "" = "" then { outs with log := some (r.log.getD "") } else outs
  let version :=
    match r.version with
    | StoredVersion.structured v =>
      if v = "" then StoredVersion.structured v else StoredVersion.plain v
    | p => p
  { r with outputs := some outs, version := version }

/-- Modelled from the spec: `runResultToActionState` (in
`core/src/actions/base.ts`, outside the excerpt) derives the uniform action
state from the result detail's success flag. -/
def runResultToActionState (r : StoredRunRecord) : String :=
  if r.success then "ready" else "failed"

/-- A backend error as caught by the read path; non-HTTP failures carry no
status code. -/
structure BackendError where
  statusCode : Option Nat := none
  deriving DecidableEq, Repr

/-- The value returned by the `getResult` handler. -/
structure GetRunResultOutcome where
  state : String
  detail : Option StoredRunRecord
  outputs : Option StoredOutputs
  deriving DecidableEq, Repr

/-- `k8sGetRunResult` (lines 265–298), as a function of the backend read's
outcome: a successful read is normalized and wrapped (the top-level `outputs`
reuses the record's legacy `log` field); a 404 becomes
`{state: "not-ready", detail: null, outputs: null}`; any other error is
rethrown. -/
def k8sGetRunResult (readResult : Except BackendError StoredRunRecord) :
    Except BackendError GetRunResultOutcome :=
  match readResult with
  | .ok record =>
    let r := normalizeRunRecord record
    .ok { state := runResultToActionState r, detail := some r, outputs := some { log := r.log } }
  | .error e =>
    if e.statusCode = some 404 then
      .ok { state := "not-ready", detail := none, outputs := none }
    else
      .error e

/-- Modelled from the spec: `gardenAnnotationKey` (in
`core/src/util/string.ts`, outside the excerpt) places a label name into
Garden's label namespace; the claims depend only on distinct names mapping to
distinct keys. -/
def gardenAnnotationKey (key : String) : String :=
  "garden.io/" ++ key

/-- The identity of the action whose result is being stored, as read by
`storeRunResult`: its name, declared type, kind, owning module name, and
version string. -/
structure ActionRuntimeInfo where
  name : String
  type : String
  kind : ActionKind
  moduleName : String
  versionString : String
  deriving DecidableEq, Repr

/-- The labels attached to the stored record by `storeRunResult`
(lines 331–336). Note the `actionType` label reuses `action.name`. -/
def runResultLabels (action : ActionRuntimeInfo) : List (String × String) :=
  [(gardenAnnotationKey "module", action.moduleName),
   (gardenAnnotationKey "actionName", action.name),
   (gardenAnnotationKey "actionType", action.name),
   (gardenAnnotationKey "version", action.versionString)]

/-- The config record upserted into the cluster: name (key), labels, and the
serialized body. -/
structure StoredConfigMap (α : Type) where
  key : String
  labels : List (String × String)
  data : α
  deriving Repr

/-- `storeRunResult` (lines 318–344), as the record it upserts: keyed by
`getRunResultKey`, labelled by `runResultLabels`, holding the size-trimmed
result (`trimRunOutput`, outside the excerpt, passed as `trim`). -/
def storeRunResultConfigMap {α : Type} (trim : α → α) (projectName : String)
    (action : ActionRuntimeInfo) (result : α) : StoredConfigMap α :=
  { key := getRunResultKey projectName action.type action.name action.versionString
    labels := runResultLabels action
    data := trim result }

/-! ## The interactive command line (`core/src/cli/command-line.ts`) -/

/-- The `CommandLine` editor state fields touched by `handleReturn`:
buffer, cursor, history scroll index, autocomplete cycling state, history. -/
structure CommandLineState where
  currentCommand : String
  cursorPosition : Nat
  historyIndex : Nat
  suggestionIndex : Int
  autocompletingFrom : Int
  commandHistory : List String
  deriving DecidableEq, Repr

/-- The editor state set up by the constructor (lines 95–100). -/
def initialCommandLineState : CommandLineState :=
  { currentCommand := ""
    cursorPosition := 0
    historyIndex := 0
    suggestionIndex := -1
    autocompletingFrom := -1
    commandHistory := [] }

/-- `moveCursor` (lines 406–410): set the cursor and reset the autocomplete
cycling state. -/
def moveCursor (st : CommandLineState) (position : Nat) : CommandLineState :=
  { st with cursorPosition := position, autocompletingFrom := -1, suggestionIndex := -1 }

/-- The externally visible effect of one `handleReturn` call. -/
inductive ReturnEffect where
  | ignoredBlank
  | executedCommand
  | flashedCommandNotFound
  deriving DecidableEq, Repr

/-- `handleReturn` (lines 412–473) as a state transition. `known` stands for
`pickCommand` finding a command for the space-split raw arguments. A blank
(whitespace-only) buffer is ignored. On a match, the raw line is pushed to
history with any prior identical entry removed, the history index is reset to
the end, and the buffer is cleared with the cursor moved to 0. On no match,
only an error is flashed. -/
def handleReturn (known : List String → Bool) (st : CommandLineState) :
    CommandLineState × ReturnEffect :=
  if jsTrim st.currentCommand = "" then
    (st, ReturnEffect.ignoredBlank)
  else
    let rawArgs := st.currentCommand.splitOn " "
    if known rawArgs then
      let history :=
        st.commandHistory.filter (fun cmd => cmd ≠ st.currentCommand) ++ [st.currentCommand]
      let st' := { st with commandHistory := history, historyIndex := history.length }
      let st' := { st' with currentCommand := "" }
      (moveCursor st' 0, ReturnEffect.executedCommand)
    else
      (st, ReturnEffect.flashedCommandNotFound)

/-- Typing a line into the buffer and pressing return. -/
def submitLine (known : List String → Bool) (line : String) (st : CommandLineState) :
    CommandLineState :=
  (handleReturn known { st with currentCommand := line }).1

/-! ## Helper lemmas -/

/-- A pattern-list scan ignores leading entries that match neither exactly
nor as globs. -/
theorem scanPatterns_append_of_no_match (key : String) (pre rest : List String)
    (h : ∀ p ∈ pre, key ≠ p ∧ minimatch key p = false) :
    scanPatterns key (pre ++ rest) = scanPatterns key rest := by
  induction pre with
  | nil => rfl
  | cons p ps ih =>
    have hp := h p (List.mem_cons_self p ps)
    simp only [List.cons_append, scanPatterns, if_neg hp.1, hp.2, Bool.false_eq_true, if_false]
    exact ih fun q hq => h q (List.mem_cons_of_mem p hq)

/-- An exact key match at the head of a pattern list wins with the explicit
flag set. -/
theorem scanPatterns_cons_self (key : String) (rest : List String) :
    scanPatterns key (key :: rest) = some true := by
  simp [scanPatterns]

/-! ## Claims C3 and C9: mode-resolution scan order and the
unsupported-mode warning -/

/-- C3 counterexample: with sync patterns `["*", "build.api"]` the key
`"build.api"` exactly equals the second entry, yet the scan stops at the
earlier entry's glob match — the result records a non-explicit (glob) match,
so the exact match did not short-circuit ahead of glob evaluation. -/
theorem claim_C3_cex :
    "build.api" ∈ ["*", "build.api"] ∧
      resolveActionMode { sync := ["*", "build.api"], local_ := [] } "build.api" =
        { mode := ActionMode.sync, explicitMode := false } := by
  constructor
  · simp
  · rfl

/-- C3 (amended): the sync pattern list is scanned in declaration order; for
each entry the exact-key comparison is evaluated before the glob match, and
an exact match short-circuits the remainder of the list — so an entry equal
to the key wins (with the explicit flag set) provided no earlier entry
matches the key exactly or as a glob. An earlier entry's glob match,
however, wins over a later exact entry. -/
theorem claim_C3 (key : String) (pre post : List String)
    (hpre : ∀ p ∈ pre, key ≠ p ∧ minimatch key p = false) :
    resolveActionMode { sync := pre ++ key :: post, local_ := [] } key =
      { mode := ActionMode.sync, explicitMode := true } := by
  unfold resolveActionMode
  rw [show ({ sync := pre ++ key :: post, local_ := [] } : ActionModeMap).sync
      = pre ++ key :: post from rfl]
  rw [scanPatterns_append_of_no_match key pre (key :: post) hpre, scanPatterns_cons_self]
  rfl

/-- Witness for C3 (amended): key `"build.api"` with an unrelated earlier
pattern `"deploy.*"`. -/
theorem claim_C3_witness :
    (∀ p ∈ ["deploy.*"], "build.api" ≠ p ∧ minimatch "build.api" p = false) ∧
      resolveActionMode { sync := ["deploy.*", "build.api"], local_ := [] } "build.api" =
        { mode := ActionMode.sync, explicitMode := true } :=
  ⟨by decide, claim_C3 "build.api" ["deploy.*"] [] (by decide)⟩

/-- C9 counterexample: with sync pattern `["build.api"]` and local pattern
`["*"]`, the key `"build.api"` is assigned `local` mode by a glob (wildcard)
match in the local list, yet — because the sync scan had set the explicit
flag — the unsupported-mode warning is emitted for an action supporting only
default mode. -/
theorem claim_C9_cex :
    scanPatterns "build.api" ["*"] = some false ∧
      resolveActionMode { sync := ["build.api"], local_ := ["*"] } "build.api" =
        { mode := ActionMode.local, explicitMode := true } ∧
      modeWarningEmitted (fun m => m == ActionMode.default)
        { sync := ["build.api"], local_ := ["*"] } "build.api" = true := by
  refine ⟨rfl, rfl, rfl⟩

/-- C9 (amended): the warning is gated on the explicit flag, which records
that an exact-key match occurred in the sync or local scan — even if a later
glob match reassigned the mode. When neither pattern list matches the key
exactly (mode assigned by glob or defaulted), no warning is emitted,
whatever the action supports. -/
theorem claim_C9 (supports : ActionMode → Bool) (modes : ActionModeMap) (key : String)
    (hsync : scanPatterns key modes.sync ≠ some true)
    (hlocal : scanPatterns key modes.local_ ≠ some true) :
    modeWarningEmitted supports modes key = false := by
  unfold modeWarningEmitted resolveActionMode
  cases hs : scanPatterns key modes.sync with
  | none =>
    cases hl : scanPatterns key modes.local_ with
    | none => simp
    | some c =>
      cases c with
      | false => simp
      | true => exact absurd hl hlocal
  | some b =>
    cases b with
    | false =>
      cases hl : scanPatterns key modes.local_ with
      | none => simp
      | some c =>
        cases c with
        | false => simp
        | true => exact absurd hl hlocal
    | true => exact absurd hs hsync

/-- Witness for C9 (amended): mode assigned purely by a glob match; no
warning even though the action supports no mode at all. -/
theorem claim_C9_witness :
    scanPatterns "build.api" ["build.*"] ≠ some true ∧
      scanPatterns "build.api" ([] : List String) ≠ some true ∧
      modeWarningEmitted (fun _ => false) { sync := ["build.*"], local_ := [] } "build.api" = false :=
  ⟨by decide, by decide, claim_C9 (fun _ => false) { sync := ["build.*"], local_ := [] }
    "build.api" (by decide) (by decide)⟩

/-! ## Claim C4: exec empty-command handling -/

/-- C4 counterexample: the exec Test `run` handler has no empty-command
short-circuit — with an empty command list it still invokes the command
runner, and its `completedAt` is the post-run clock reading rather than
`startedAt`. -/
theorem claim_C4_cex :
    (execTestHandler (fun _ => { exitCode := 0, allOutput := some "ran" }) [] 0 1).executed = true ∧
      (execTestHandler (fun _ => { exitCode := 0, allOutput := some "ran" }) [] 0 1).detail.startedAt ≠
        (execTestHandler (fun _ => { exitCode := 0, allOutput := some "ran" }) [] 0 1).detail.completedAt := by
  refine ⟨rfl, by decide⟩

/-- C4 (amended): an exec Run action with an empty command reports an
immediate no-op success without executing anything, with empty captured
output and `startedAt = completedAt`; an exec Build with an empty command
skips execution and stays `ready` with empty outputs; the exec Test handler,
by contrast, always executes, and stamps the post-run clock reading as
`completedAt`. -/
theorem claim_C4 (runner : List String → CmdResult) (t0 t1 : Nat) :
    execRunHandler runner [] t0 t1 =
      { executed := false
        detail := { success := true, log := "", startedAt := t0, completedAt := t0 }
        outputsLog := "" } ∧
    execBuildHandler runner [] =
      { executed := false, state := "ready", fresh := false, buildLog := none,
        outputsLog := none } ∧
    (∀ command, (execTestHandler runner command t0 t1).executed = true ∧
      (execTestHandler runner command t0 t1).detail.startedAt = t0 ∧
      (execTestHandler runner command t0 t1).detail.completedAt = t1) :=
  ⟨rfl, rfl, fun _ => ⟨rfl, rfl, rfl⟩⟩

/-! ## Claim C7: run-result store labels -/

/-- C7 counterexample: for a Run action named `"api"` of declared type
`"container"`, the persisted record's "action type" label holds `"api"` (the
action's name), not `"container"`. -/
theorem claim_C7_cex :
    ((storeRunResultConfigMap (fun r : Unit => r) "proj"
        { name := "api", type := "container", kind := ActionKind.Run,
          moduleName := "mod", versionString := "v-abc" } ()).labels).lookup
      (gardenAnnotationKey "actionType") = some "api" ∧ ("api" : String) ≠ "container" := by
  refine ⟨rfl, by decide⟩

/-- C7 (amended): every record persisted by `storeRunResult` is labelled
with the module name, the action name, the action's version string, and an
"action type" label whose value is the action's *name* (duplicating the
actionName label), not its declared type. -/
theorem claim_C7 {α : Type} (trim : α → α) (projectName : String)
    (action : ActionRuntimeInfo) (result : α) :
    ((storeRunResultConfigMap trim projectName action result).labels).lookup
        (gardenAnnotationKey "module") = some action.moduleName ∧
    ((storeRunResultConfigMap trim projectName action result).labels).lookup
        (gardenAnnotationKey "actionName") = some action.name ∧
    ((storeRunResultConfigMap trim projectName action result).labels).lookup
        (gardenAnnotationKey "actionType") = some action.name ∧
    ((storeRunResultConfigMap trim projectName action result).labels).lookup
        (gardenAnnotationKey "version") = some action.versionString :=
  ⟨rfl, rfl, rfl, rfl⟩

/-! ## Claims C8 and C10: the command-line return handler -/

/-- C8: submitting a line that matches a known command removes any earlier
identical history entry and appends the line at the end, and resets the
history-scroll index to the end of history; in particular submitting
`"build api"`, `"status"`, `"build api"` from a fresh editor leaves history
`["status", "build api"]` with the index at its end. -/
theorem claim_C8 :
    (∀ (known : List String → Bool) (st : CommandLineState) (line : String),
        jsTrim line ≠ "" → known (line.splitOn " ") = true →
        (submitLine known line st).commandHistory =
            st.commandHistory.filter (fun cmd => cmd ≠ line) ++ [line] ∧
          (submitLine known line st).historyIndex =
            (st.commandHistory.filter (fun cmd => cmd ≠ line) ++ [line]).length) ∧
      submitLine (fun _ => true) "build api"
          (submitLine (fun _ => true) "status"
            (submitLine (fun _ => true) "build api" initialCommandLineState)) =
        { currentCommand := "", cursorPosition := 0, historyIndex := 2,
          suggestionIndex := -1, autocompletingFrom := -1,
          commandHistory := ["status", "build api"] } := by
  constructor
  · intro known st line h1 h2
    simp [submitLine, handleReturn, h2, if_neg h1, moveCursor]
  · rfl

/-- Witness for C8: one concrete submission onto a history that already
contains the line. -/
theorem claim_C8_witness :
    jsTrim "build api" ≠ "" ∧
      (submitLine (fun _ => true) "build api"
          { initialCommandLineState with
            commandHistory := ["build api", "status"], historyIndex := 2 }).commandHistory =
        ["build api", "status"].filter (fun cmd => cmd ≠ "build api") ++ ["build api"] :=
  ⟨by decide,
    (claim_C8.1 (fun _ => true)
      { initialCommandLineState with commandHistory := ["build api", "status"], historyIndex := 2 }
      "build api" (by decide) rfl).1⟩

/-- C10: pressing return on a non-blank buffer that matches no known command
leaves the whole editor state unchanged — buffer, cursor, history and
history-scroll index — and only flashes the command-not-found error. -/
theorem claim_C10 (known : List String → Bool) (st : CommandLineState)
    (h1 : jsTrim st.currentCommand ≠ "")
    (h2 : known (st.currentCommand.splitOn " ") = false) :
    handleReturn known st = (st, ReturnEffect.flashedCommandNotFound) := by
  simp only [handleReturn, if_neg h1, h2, Bool.false_eq_true, if_false]

/-- Witness for C10: a concrete unrecognized line. -/
theorem claim_C10_witness :
    jsTrim "frobnicate now" ≠ "" ∧
      handleReturn (fun _ => false)
          { initialCommandLineState with currentCommand := "frobnicate now", cursorPosition := 3 } =
        ({ initialCommandLineState with currentCommand := "frobnicate now", cursorPosition := 3 },
          ReturnEffect.flashedCommandNotFound) :=
  ⟨by decide,
    claim_C10 (fun _ => false)
      { initialCommandLineState with currentCommand := "frobnicate now", cursorPosition := 3 }
      (by decide) rfl⟩

/-! ## Claim C6: run-result read backwards-compatibility -/

/-- C6 counterexample: a stored record with no `outputs` object is *not*
read back with `outputs = {}` — the log backfill runs unconditionally, so the
detail's outputs object is `{log: ""}`. -/
theorem claim_C6_cex :
    k8sGetRunResult (.ok { success := true, log := none, outputs := none,
                           version := StoredVersion.plain "v1" }) =
      .ok
        { state := "ready",
          detail := some { success := true, log := none,
                           outputs := some { log := some "" },
                           version := StoredVersion.plain "v1" },
          outputs := some { log := none } } ∧
      some ({ log := some "" } : StoredOutputs) ≠ some ({ } : StoredOutputs) := by
  refine ⟨rfl, by decide⟩

/-- C6 (amended): a record lacking an `outputs` object has an empty one
synthesized whose `log` is then backfilled from the legacy top-level `log`
field (the empty string when that is also absent); a record lacking
`outputs.log` but carrying a legacy `log` value is read back with
`outputs.log` equal to that value; a backend 404 yields
`{state: "not-ready", detail: null, outputs: null}` instead of raising; any
other backend error is propagated. -/
theorem claim_C6 :
    (∀ r : StoredRunRecord, r.outputs = none →
        (normalizeRunRecord r).outputs = some { log := some (r.log.getD "") }) ∧
    (∀ (r : StoredRunRecord) (s : String),
        (r.outputs = some { log := none } ∨ r.outputs = some { log := some "" }) →
        r.log = some s → (normalizeRunRecord r).outputs = some { log := some s }) ∧
    (∀ r : StoredRunRecord, k8sGetRunResult (.ok r) =
        .ok { state := runResultToActionState (normalizeRunRecord r),
              detail := some (normalizeRunRecord r),
              outputs := some { log := r.log } }) ∧
    (∀ e : BackendError, e.statusCode = some 404 →
        k8sGetRunResult (.error e) =
          .ok { state := "not-ready", detail := none, outputs := none }) ∧
    (∀ e : BackendError, e.statusCode ≠ some 404 →
        k8sGetRunResult (.error e) = .error e) := by
  refine ⟨fun r h => ?_, fun r s hout hlog => ?_, fun r => ?_, fun e h => ?_, fun e h => ?_⟩
  · simp [normalizeRunRecord, h]
  · rcases hout with h | h <;> simp [normalizeRunRecord, h, hlog]
  · simp [k8sGetRunResult, normalizeRunRecord]
  · simp [k8sGetRunResult, h]
  · simp [k8sGetRunResult, h]

/-- Witness for C6: a legacy record with a top-level `log` only, plus a
non-404 backend error. -/
theorem claim_C6_witness :
    ((({ success := true, log := some "legacy", outputs := some { log := none },
         version := StoredVersion.plain "v" } : StoredRunRecord).outputs =
          some { log := none } ∨
        ({ success := true, log := some "legacy", outputs := some { log := none },
           version := StoredVersion.plain "v" } : StoredRunRecord).outputs =
          some { log := some "" }) ∧
       (normalizeRunRecord
          { success := true, log := some "legacy", outputs := some { log := none },
            version := StoredVersion.plain "v" }).outputs = some { log := some "legacy" }) ∧
      (({ statusCode := some 500 } : BackendError).statusCode ≠ some 404 ∧
        k8sGetRunResult (.error { statusCode := some 500 }) =
          .error { statusCode := some 500 }) :=
  ⟨⟨Or.inl rfl,
      claim_C6.2.1
        { success := true, log := some "legacy", outputs := some { log := none },
          version := StoredVersion.plain "v" } "legacy" (Or.inl rfl) rfl⟩,
    by decide, claim_C6.2.2.2.2 { statusCode := some 500 } (by decide)⟩

/-! ## Claim C2: static vs executed output dependencies -/

/-- C2: a template reference `${actions.<kind>.<name>.outputs.<key>}` (with a
literal name and a non-empty key) produces exactly one inferred dependency
edge: `needsExecutedOutputs = false, needsStaticOutputs = true` when the
output key is declared in the referenced type's static-outputs schema keys,
and `needsExecutedOutputs = true, needsStaticOutputs = false` when it is
not. -/
theorem claim_C2 (staticKeys : List String) (configsByKey : ConfigsByKey)
    (resolveName : String → Option String) (cfg : ActionConfig) (k : ActionKind)
    (n key : String)
    (hdeps : cfg.dependencies = []) (hcopy : cfg.copyFrom = []) (hbuild : cfg.build = none)
    (hrefs : cfg.templateRefs = [⟨k, n, ["actions", k.str, n, "outputs", key]⟩])
    (hname : maybeTemplateString n = false) (hkey : key ≠ "") :
    dependenciesFromActionConfig cfg configsByKey staticKeys resolveName =
      .ok [{ kind := k, name := n, explicit := false,
             needsExecutedOutputs := !staticKeys.contains key,
             needsStaticOutputs := staticKeys.contains key }] := by
  unfold dependenciesFromActionConfig
  rw [hdeps]
  have hd : (([] : List String).mapM fun d => do
      let (kind, name) ← parseActionReference d
      pure { kind := kind, name := name, explicit := true,
             needsExecutedOutputs := false, needsStaticOutputs := false : ActionDependency }) =
      (Except.ok [] : Except String (List ActionDependency)) := rfl
  rw [hd]
  have hmid : ∀ deps, deps = ([] : List ActionDependency) →
      (cfg.templateRefs.foldl
        (fun deps ref =>
          let resolved : Option String :=
            if maybeTemplateString ref.name then resolveName ref.name else some ref.name
          match resolved with
          | none => deps
          | some nm => addActionDependency (inferTemplateRefDep staticKeys ref.kind nm ref.fullRef) deps)
        deps) =
      [{ kind := k, name := n, explicit := false,
         needsExecutedOutputs := !staticKeys.contains key,
         needsStaticOutputs := staticKeys.contains key }] := by
    intro deps hdeq
    subst hdeq
    rw [hrefs]
    simp only [List.foldl, hname, Bool.false_eq_true, if_false]
    rw [show (inferTemplateRefDep staticKeys k n ["actions", k.str, n, "outputs", key]) =
        { kind := k, name := n, explicit := false,
          needsExecutedOutputs := !staticKeys.contains key,
          needsStaticOutputs := staticKeys.contains key } from ?_]
    · rfl
    · unfold inferTemplateRefDep
      simp only [List.get?]
      cases hc : staticKeys.contains key <;> simp [hkey, hc]
  cases hk : cfg.kind with
  | Build =>
    rw [hcopy]
    simpa using hmid [] rfl
  | Deploy =>
    rw [hbuild]
    simpa using hmid [] rfl
  | Run =>
    rw [hbuild]
    simpa using hmid [] rfl
  | Test =>
    rw [hbuild]
    simpa using hmid [] rfl

/-- Witness for C2: a container Deploy referencing
`${actions.Build.api.outputs.deployment-image-name}` where that key is a
static output of the Build type. -/
theorem claim_C2_witness :
    (({ kind := ActionKind.Deploy, type := "container", name := "web",
        internal := { basePath := "/p" }, dependencies := [], copyFrom := [], build := none,
        templateRefs :=
          [⟨ActionKind.Build, "api",
            ["actions", "Build", "api", "outputs", "deployment-image-name"]⟩] } :
        ActionConfig).dependencies = [] ∧
      maybeTemplateString "api" = false ∧ ("deployment-image-name" : String) ≠ "") ∧
    dependenciesFromActionConfig
      { kind := ActionKind.Deploy, type := "container", name := "web",
        internal := { basePath := "/p" }, dependencies := [], copyFrom := [], build := none,
        templateRefs :=
          [⟨ActionKind.Build, "api",
            ["actions", "Build", "api", "outputs", "deployment-image-name"]⟩] }
      [] ["deployment-image-name"] (fun _ => none) =
      .ok [{ kind := ActionKind.Build, name := "api", explicit := false,
             needsExecutedOutputs :=
               !(List.contains ["deployment-image-name"] "deployment-image-name"),
             needsStaticOutputs :=
               List.contains ["deployment-image-name"] "deployment-image-name" }] :=
  ⟨⟨rfl, by decide, by decide⟩,
    claim_C2 ["deployment-image-name"] [] (fun _ => none)
      { kind := ActionKind.Deploy, type := "container", name := "web",
        internal := { basePath := "/p" }, dependencies := [], copyFrom := [], build := none,
        templateRefs :=
          [⟨ActionKind.Build, "api",
            ["actions", "Build", "api", "outputs", "deployment-image-name"]⟩] }
      ActionKind.Build "api" "deployment-image-name" rfl rfl rfl rfl (by decide) (by decide)⟩

/-! ## Claim C5: run-result key derivation -/

/-- `hexChars.getD` at an index below 16 lands in `hexChars`. -/
theorem getD_hexChars_mem : ∀ m < 16, hexChars.getD m '0' ∈ hexChars := by decide

/-- Hex digits are hex characters. -/
theorem hexDigit_mem_hexChars (n : Nat) : hexDigit n ∈ hexChars :=
  getD_hexChars_mem (n % 16) (Nat.mod_lt _ (by norm_num))

/-- Every character of a rendered 32-bit word is a hex character. -/
theorem hexWord32_chars {c : Char} {x : Nat} (h : c ∈ hexWord32 x) : c ∈ hexChars := by
  simp only [hexWord32, List.mem_map] at h
  obtain ⟨i, _, rfl⟩ := h
  exact hexDigit_mem_hexChars _

/-- A rendered 32-bit word is 8 characters long. -/
theorem hexWord32_length (x : Nat) : (hexWord32 x).length = 8 := by
  simp [hexWord32]

/-- A SHA-1 hex digest is 40 characters long. -/
theorem sha1Hex_data_length (bs : List Nat) : (sha1Hex bs).data.length = 40 := by
  show (hexWord32 _ ++ hexWord32 _ ++ hexWord32 _ ++ hexWord32 _ ++ hexWord32 _).length = 40
  simp [hexWord32_length]

/-- Every character of a SHA-1 hex digest is a hex character. -/
theorem sha1Hex_chars (bs : List Nat) {c : Char} (h : c ∈ (sha1Hex bs).data) : c ∈ hexChars := by
  have h' : c ∈ hexWord32 _ ++ hexWord32 _ ++ hexWord32 _ ++ hexWord32 _ ++ hexWord32 _ := h
  simp only [List.mem_append] at h'
  rcases h' with (((h' | h') | h') | h') | h' <;> exact hexWord32_chars h'

/-- C5: the run-result store key is a deterministic function of the project
name, action type, action name and version string; it equals
`"run-result--"` followed by the first 32 characters of the SHA-1 hex digest
of `"<projectName>--<actionType>.<actionName>--<versionString>"`, it is 44
bytes long (12-byte literal plus exactly 32 digest characters), and every
character after the literal is a hex character. -/
theorem claim_C5 (p t n v : String) :
    getRunResultKey p t n v =
      "run-result--" ++
        sliceChars (sha1Hex (utf8Bytes (p ++ "--" ++ t ++ "." ++ n ++ "--" ++ v))) 32 ∧
    (getRunResultKey p t n v).length = 44 ∧
    (sliceChars (sha1Hex (utf8Bytes (p ++ "--" ++ t ++ "." ++ n ++ "--" ++ v))) 32).length = 32 ∧
    ∀ c ∈ (sliceChars (sha1Hex (utf8Bytes (p ++ "--" ++ t ++ "." ++ n ++ "--" ++ v))) 32).data,
      c ∈ hexChars := by
  have hlen : (sliceChars (sha1Hex (utf8Bytes (p ++ "--" ++ t ++ "." ++ n ++ "--" ++ v))) 32).length
      = 32 := by
    show (List.take 32 _).length = 32
    rw [List.length_take, sha1Hex_data_length]
    decide
  refine ⟨rfl, ?_, hlen, ?_⟩
  · show ("run-result--" ++ _ : String).length = 44
    rw [String.length_append, hlen]
    decide
  · intro c hc
    have : c ∈ (sha1Hex (utf8Bytes (p ++ "--" ++ t ++ "." ++ n ++ "--" ++ v))).data :=
      List.mem_of_mem_take hc
    exact sha1Hex_chars _ this


/-! ## Claim C1: duplicate `(kind, name)` registration fails -/

/-- Every kind is a member of `actionKinds` (the kind set is closed). -/
theorem actionKinds_contains (k : ActionKind) : actionKinds.contains k = true := by
  cases k <;> rfl

/-- Binding an `Except.error` short-circuits. -/
theorem except_bind_error {ε σ τ : Type} (err : ε)
    (next : σ → Except ε τ) : (Except.error err >>= next) = Except.error err := rfl

/-- Binding an `Except.ok` applies the continuation. -/
theorem except_bind_ok {ε σ τ : Type} (x : σ)
    (next : σ → Except ε τ) : (Except.ok x >>= next) = next x := rfl

/-- The registration fold unfolded one step. -/
theorem foldlM_addConfig_cons (root : String) (reg : ConfigsByKey) (c : ActionConfig)
    (cs : List ActionConfig) :
    List.foldlM (addConfig root) reg (c :: cs) =
      (addConfig root reg c >>= fun r => List.foldlM (addConfig root) r cs) := rfl

/-- A successful association-list lookup locates an entry. -/
theorem lookup_mem {reg : ConfigsByKey} {k : String} {cfg : ActionConfig}
    (h : List.lookup k reg = some cfg) : (k, cfg) ∈ reg := by
  induction reg with
  | nil =>
    exact Option.noConfusion h
  | cons kv rest ih =>
    obtain ⟨k', cfg'⟩ := kv
    simp only [List.lookup] at h
    cases hbeq : (k == k') with
    | true =>
      rw [hbeq] at h
      simp only [Option.some.injEq] at h
      subst h
      have hk : k = k' := by simpa using hbeq
      subst hk
      exact List.mem_cons_self _ _
    | false =>
      rw [hbeq] at h
      exact List.mem_cons_of_mem _ (ih h)

/-- Lookup stays successful after appending entries on the right. -/
theorem lookup_append_isSome {l1 : ConfigsByKey} (l2 : ConfigsByKey) {k : String}
    (h : (List.lookup k l1).isSome) : (List.lookup k (l1 ++ l2)).isSome := by
  induction l1 with
  | nil => simp [List.lookup] at h
  | cons kv rest ih =>
    obtain ⟨k', v'⟩ := kv
    simp only [List.lookup] at h ⊢
    cases hbeq : (k == k') with
    | true => rfl
    | false =>
      rw [hbeq] at h
      exact ih h

/-- Appending an entry for `k` makes lookup of `k` succeed. -/
theorem lookup_append_singleton_isSome (l : ConfigsByKey) (k : String) (c : ActionConfig) :
    (List.lookup k (l ++ [(k, c)])).isSome := by
  induction l with
  | nil => simp [List.lookup]
  | cons kv rest ih =>
    obtain ⟨k', v'⟩ := kv
    simp only [List.cons_append, List.lookup]
    cases hbeq : (k == k') with
    | true => rfl
    | false => exact ih

/-- A successful `addConfig` appends the config under its key and certifies
the key was free. -/
theorem addConfig_ok {root : String} {reg : ConfigsByKey} {c : ActionConfig}
    {reg' : ConfigsByKey} (h : addConfig root reg c = .ok reg') :
    reg' = reg ++ [(c.key, c)] ∧ List.lookup c.key reg = none := by
  unfold addConfig at h
  rw [actionKinds_contains] at h
  simp only [not_true_eq_false, if_false] at h
  cases hl : List.lookup c.key reg with
  | none =>
    rw [hl] at h
    simp only [Except.ok.injEq] at h
    exact ⟨h.symm, rfl⟩
  | some ex =>
    rw [hl] at h
    cases h

/-- A failing `addConfig` is precisely a name conflict with the registered
config under the same key. -/
theorem addConfig_error {root : String} {reg : ConfigsByKey} {c : ActionConfig}
    {e : ConfigurationError} (h : addConfig root reg c = .error e) :
    ∃ ex, List.lookup c.key reg = some ex ∧ e = actionNameConflictError ex c root := by
  unfold addConfig at h
  rw [actionKinds_contains] at h
  simp only [not_true_eq_false, if_false] at h
  cases hl : List.lookup c.key reg with
  | none =>
    rw [hl] at h
    cases h
  | some ex =>
    rw [hl] at h
    simp only [Except.error.injEq] at h
    exact ⟨ex, rfl, h.symm⟩

/-- Any error of the registration fold is a name-conflict error between two
configs of the input set (or the seed registry) sharing one key. -/
theorem foldAdd_error_conflict (root : String) :
    ∀ (cs : List ActionConfig) (reg : ConfigsByKey) (e : ConfigurationError),
      (∀ kv ∈ reg, kv.1 = kv.2.key) →
      List.foldlM (addConfig root) reg cs = .error e →
      ∃ a b, e = actionNameConflictError a b root ∧ a.key = b.key ∧
        (a ∈ reg.map Prod.snd ∨ a ∈ cs) ∧ b ∈ cs := by
  intro cs
  induction cs with
  | nil =>
    intro reg e _ h
    exact Except.noConfusion h
  | cons c cs ih =>
    intro reg e hreg h
    rw [foldlM_addConfig_cons] at h
    cases haddc : addConfig root reg c with
    | error e' =>
      rw [haddc, except_bind_error] at h
      have he : e' = e := by simpa using h
      obtain ⟨ex, hl, hee⟩ := addConfig_error haddc
      have hmem := lookup_mem hl
      refine ⟨ex, c, by rw [← he, hee], (hreg _ hmem).symm, ?_, List.mem_cons_self _ _⟩
      exact Or.inl (List.mem_map_of_mem Prod.snd hmem)
    | ok reg' =>
      rw [haddc, except_bind_ok] at h
      obtain ⟨hr', _⟩ := addConfig_ok haddc
      have hreg' : ∀ kv ∈ reg', kv.1 = kv.2.key := by
        subst hr'
        intro kv hkv
        rcases List.mem_append.mp hkv with h1 | h2
        · exact hreg _ h1
        · have : kv = (c.key, c) := by simpa using h2
          subst this
          rfl
      obtain ⟨a, b, h1, h2, h3, h4⟩ := ih reg' e hreg' h
      refine ⟨a, b, h1, h2, ?_, List.mem_cons_of_mem _ h4⟩
      rcases h3 with h3 | h3
      · subst hr'
        rw [List.map_append, List.mem_append] at h3
        rcases h3 with h3 | h3
        · exact Or.inl h3
        · have : a = c := by simpa using h3
          subst this
          exact Or.inr (List.mem_cons_self _ _)
      · exact Or.inr (List.mem_cons_of_mem _ h3)

/-- If some config of the input has its key already registered, the fold
fails. -/
theorem foldAdd_reaches_error (root : String) :
    ∀ (cs : List ActionConfig) (reg : ConfigsByKey) (c1 : ActionConfig),
      c1 ∈ cs → (List.lookup c1.key reg).isSome →
      ∃ e, List.foldlM (addConfig root) reg cs = .error e := by
  intro cs
  induction cs with
  | nil =>
    intro reg c1 h
    simp at h
  | cons c cs ih =>
    intro reg c1 hc1 hsome
    cases haddc : addConfig root reg c with
    | error e' =>
      exact ⟨e', by rw [foldlM_addConfig_cons, haddc, except_bind_error]⟩
    | ok reg' =>
      obtain ⟨hr', hnone⟩ := addConfig_ok haddc
      rcases List.mem_cons.mp hc1 with rfl | hmem
      · rw [hnone] at hsome
        simp at hsome
      · have hsome' : (List.lookup c1.key reg').isSome := by
          subst hr'
          exact lookup_append_isSome _ hsome
        obtain ⟨e, he⟩ := ih reg' c1 hmem hsome'
        exact ⟨e, by rw [foldlM_addConfig_cons, haddc, except_bind_ok]; exact he⟩

/-- A config list with two occurrences of one key makes the registration
fold fail, from any seed registry. -/
theorem foldAdd_dup_error (root : String) :
    ∀ (pre : List ActionConfig) (c1 : ActionConfig) (mid : List ActionConfig)
      (c2 : ActionConfig) (post : List ActionConfig) (reg : ConfigsByKey),
      c1.key = c2.key →
      ∃ e, List.foldlM (addConfig root) reg (pre ++ (c1 :: (mid ++ (c2 :: post)))) = .error e := by
  intro pre
  induction pre with
  | nil =>
    intro c1 mid c2 post reg hkey
    rw [List.nil_append]
    cases haddc : addConfig root reg c1 with
    | error e' =>
      exact ⟨e', by rw [foldlM_addConfig_cons, haddc, except_bind_error]⟩
    | ok reg' =>
      obtain ⟨hr', _⟩ := addConfig_ok haddc
      have hsome : (List.lookup c2.key reg').isSome := by
        subst hr'
        rw [← hkey]
        exact lookup_append_singleton_isSome reg c1.key c1
      obtain ⟨e, he⟩ :=
        foldAdd_reaches_error root (mid ++ c2 :: post) reg' c2 (by simp) hsome
      exact ⟨e, by rw [foldlM_addConfig_cons, haddc, except_bind_ok]; exact he⟩
  | cons p ps ih =>
    intro c1 mid c2 post reg hkey
    rw [List.cons_append]
    cases haddc : addConfig root reg p with
    | error e' =>
      exact ⟨e', by rw [foldlM_addConfig_cons, haddc, except_bind_error]⟩
    | ok reg' =>
      obtain ⟨e, he⟩ := ih c1 mid c2 post reg' hkey
      exact ⟨e, by rw [foldlM_addConfig_cons, haddc, except_bind_ok]; exact he⟩

/-- C1: whenever the flattened config set passed to graph construction
(directly declared or module-derived configs plus group-nested ones)
contains two configs with the same `"kind.name"` key, registration fails
with a name-conflict configuration error built from two same-key configs of
that set (naming both their source paths), and no registry is produced. -/
theorem claim_C1 (projectRoot : String) (configs : List ActionConfig)
    (groups : List GroupConfig) (pre : List ActionConfig) (c1 : ActionConfig)
    (mid : List ActionConfig) (c2 : ActionConfig) (post : List ActionConfig)
    (hflat : flattenConfigs configs groups = pre ++ (c1 :: (mid ++ (c2 :: post))))
    (hkey : c1.key = c2.key) :
    (∃ a b, registerActionConfigs projectRoot configs groups =
        .error (actionNameConflictError a b projectRoot) ∧ a.key = b.key ∧
        a ∈ flattenConfigs configs groups ∧ b ∈ flattenConfigs configs groups) ∧
    ∀ reg, registerActionConfigs projectRoot configs groups ≠ .ok reg := by
  obtain ⟨e, he⟩ := foldAdd_dup_error projectRoot pre c1 mid c2 post [] hkey
  have hre : registerActionConfigs projectRoot configs groups = .error e := by
    unfold registerActionConfigs buildConfigsByKey
    rw [hflat]
    exact he
  obtain ⟨a, b, h1, h2, h3, h4⟩ :=
    foldAdd_error_conflict projectRoot _ [] e (by simp) he
  refine ⟨⟨a, b, ?_, h2, ?_, ?_⟩, ?_⟩
  · rw [hre, h1]
  · rw [hflat]
    rcases h3 with h3 | h3
    · simp at h3
    · exact h3
  · rw [hflat]
    exact h4
  · intro reg h'
    rw [hre] at h'
    cases h'

/-- Witness for C1: two Build actions both named `"api"` from different
config files. -/
theorem claim_C1_witness :
    (flattenConfigs [sampleConfigA, sampleConfigB] [] =
        [] ++ (sampleConfigA :: ([] ++ (sampleConfigB :: []))) ∧
      sampleConfigA.key = sampleConfigB.key) ∧
    (∃ a b, registerActionConfigs "/root" [sampleConfigA, sampleConfigB] [] =
        .error (actionNameConflictError a b "/root") ∧ a.key = b.key ∧
        a ∈ flattenConfigs [sampleConfigA, sampleConfigB] [] ∧
        b ∈ flattenConfigs [sampleConfigA, sampleConfigB] []) ∧
    ∀ reg, registerActionConfigs "/root" [sampleConfigA, sampleConfigB] [] ≠ .ok reg :=
  ⟨⟨rfl, rfl⟩,
    claim_C1 "/root" [sampleConfigA, sampleConfigB] [] [] sampleConfigA [] sampleConfigB []
      rfl rfl⟩

end Garden
